import Mathlib

/-!
Shallow embedding of the tree-walking interpreter in `src/main.rs`
(crate `astra`): the runtime value domain, the expression/statement AST,
the recursive evaluator `eval`, the function-call machinery
`execute_function`, and the two statement runners `run_statement` /
`run_statement_in_function`.

Machine floats (`f64`) are modelled by `F64`: NaN, the two infinities,
negative zero, and finite values carried as exact rationals.  The IEEE-754
comparison predicates (`==`, `<`, `<=`, ...) on f64 are exact and are
modelled exactly; arithmetic rounds each exact rational result back to a
53-bit significand (round-to-nearest, ties-to-even), which matches IEEE-754
binary64 except that subnormal precision loss below 2^-1022 is not modelled.
`BigInt` is modelled by `Int`, Rust `String` by Lean `String`, and the
`HashMap` environments by association lists with overwrite-on-insert.
All fallible code returns `Except String`, like `Result<_, String>` in the
source.  The mutually recursive interpreter is made total with a fuel
parameter: every recursive call consumes one unit of fuel, so `interp` is
structurally recursive on the fuel and every definition is executable.
-/

set_option maxRecDepth 100000

/-- Fuel-driven binary length: `bits_aux fuel n` is the bit length of `n`
provided `fuel` bounds it.  Structural recursion on the fuel keeps it
kernel-reducible (unlike `Nat.size`, which is well-founded). -/
def bits_aux : ℕ → ℕ → ℕ
  | 0, _ => 0
  | fuel + 1, n => if n = 0 then 0 else bits_aux fuel (n / 2) + 1

/-- Bit length of a natural number (`n` itself bounds its bit length). -/
def nat_bits (n : ℕ) : ℕ := bits_aux n n

/-- Rational negation through `mkRat` (kernel-reducible, unlike the `Neg`
route for composite expressions). -/
def qNeg (p : ℚ) : ℚ := mkRat (-p.num) p.den

/-- Rational addition through `mkRat`. -/
def qAdd (p q : ℚ) : ℚ := mkRat (p.num * q.den + q.num * p.den) (p.den * q.den)

/-- Rational subtraction through `mkRat`. -/
def qSub (p q : ℚ) : ℚ := qAdd p (qNeg q)

/-- Rational multiplication through `mkRat`. -/
def qMul (p q : ℚ) : ℚ := mkRat (p.num * q.num) (p.den * q.den)

/-- Rational division through `mkRat` (zero divisor yields 0; every use
site guards against it). -/
def qDiv (p q : ℚ) : ℚ := mkRat (p.num * q.den * q.num.sign) (p.den * q.num.natAbs)

/-- Rational inverse through `mkRat`. -/
def qInv (q : ℚ) : ℚ := mkRat (q.den * q.num.sign) q.num.natAbs

/-- Rational natural power through `mkRat`. -/
def qPowNat (p : ℚ) (k : ℕ) : ℚ := mkRat (p.num ^ k) (p.den ^ k)

/-- Rational absolute value through `mkRat`. -/
def qAbs (p : ℚ) : ℚ := mkRat (p.num.natAbs : ℤ) p.den

/-- Model of Rust `f64`: NaN, infinities, negative zero, and finite values
as exact rationals (`fin 0` is +0.0, `negZero` is -0.0). -/
inductive F64 where
  | nan : F64
  | posInf : F64
  | negInf : F64
  | negZero : F64
  | fin : ℚ → F64
deriving DecidableEq

/-- The rational payload of a (finite) float; `negZero` counts as 0. -/
def F64.asRat : F64 → Option ℚ
  | .fin q => some q
  | .negZero => some 0
  | _ => none

/-- IEEE-754 equality on f64 (Rust `==` on `f64`): NaN is equal to nothing
(itself included), and -0.0 equals +0.0. -/
def f64_eq (a b : F64) : Bool :=
  match a.asRat, b.asRat with
  | some x, some y => decide (x = y)
  | _, _ =>
    match a, b with
    | .posInf, .posInf => true
    | .negInf, .negInf => true
    | _, _ => false

/-- IEEE-754 `<=` on f64 (Rust `<=`): false whenever either side is NaN. -/
def f64_le (a b : F64) : Bool :=
  match a, b with
  | .nan, _ => false
  | _, .nan => false
  | .negInf, _ => true
  | _, .negInf => false
  | _, .posInf => true
  | .posInf, _ => false
  | a, b => decide ((a.asRat.getD 0) ≤ (b.asRat.getD 0))

/-- IEEE-754 `<` on f64: false whenever either side is NaN. -/
def f64_lt (a b : F64) : Bool :=
  match a, b with
  | .nan, _ => false
  | _, .nan => false
  | .negInf, .negInf => false
  | .negInf, _ => true
  | _, .negInf => false
  | .posInf, .posInf => false
  | _, .posInf => true
  | .posInf, _ => false
  | a, b => decide ((a.asRat.getD 0) < (b.asRat.getD 0))

/-- IEEE-754 `>` on f64. -/
def f64_gt (a b : F64) : Bool := f64_lt b a

/-- IEEE-754 `>=` on f64. -/
def f64_ge (a b : F64) : Bool := f64_le b a

/-- f64 negation (Rust unary `-` on `f64`): flips the sign, including the
sign of zero. -/
def f64_neg : F64 → F64
  | .nan => .nan
  | .posInf => .negInf
  | .negInf => .posInf
  | .negZero => .fin 0
  | .fin q => if q = 0 then .negZero else .fin (qNeg q)

/-- f64 absolute value. -/
def f64_abs : F64 → F64
  | .nan => .nan
  | .posInf => .posInf
  | .negInf => .posInf
  | .negZero => .fin 0
  | .fin q => .fin (qAbs q)

/-- Round the positive rational `n/d` (n, d ≥ 1) to the nearest value with
a 53-bit significand (round-to-nearest, ties-to-even), the IEEE-754
binary64 rounding used by `f64` arithmetic, float parsing and
`BigInt::to_f64`.  Returns `none` when the rounded result is at least
2^1024 (f64 overflow).  Subnormal precision loss below 2^-1022 is not
modelled.  All arithmetic is on integers so the definition reduces in the
kernel. -/
def f64_round_pos (n d : ℕ) : Option ℚ :=
  if n = 0 then some 0 else
  let shift := nat_bits d + 120
  let scaled := n <<< shift
  let m := scaled / d
  let sticky := decide (scaled % d ≠ 0)
  let t := nat_bits m - 53
  let top := m >>> t
  let rem := m % (2 ^ t)
  let half := 2 ^ (t - 1)
  let top2 := if half < rem ∨ (rem = half ∧ (sticky = true ∨ top % 2 = 1)) then top + 1 else top
  if shift ≤ t then
    let vnum := top2 <<< (t - shift)
    if 2 ^ 1024 ≤ vnum then none else some ((vnum : ℕ) : ℚ)
  else
    let sh := shift - t
    if 2 ^ 1024 <<< sh ≤ top2 then none else some (mkRat (top2 : ℤ) (2 ^ sh))

/-- Round any rational to f64 (used when Rust parses or computes a float);
overflow gives the correctly-signed infinity. -/
def rat_to_f64 (q : ℚ) : F64 :=
  if q = 0 then .fin 0
  else
    match f64_round_pos q.num.natAbs q.den with
    | none => if 0 < q.num then .posInf else .negInf
    | some a => .fin (if q.num < 0 then qNeg a else a)

/-- `BigInt::to_f64` (num-bigint `ToPrimitive`), as consumed fallibly by the
source (`ok_or("... too large for float conversion")`): round-to-nearest
conversion, `none` when the value is outside the finite f64 range. -/
def int_to_f64 (n : ℤ) : Option F64 :=
  if n = 0 then some (.fin 0)
  else
    match f64_round_pos n.natAbs 1 with
    | none => none
    | some a => some (.fin (if n < 0 then qNeg a else a))

/-- f64 addition: exact rational addition followed by rounding, with the
IEEE special-value and signed-zero rules. -/
def f64_add (a b : F64) : F64 :=
  match a, b with
  | .nan, _ => .nan
  | _, .nan => .nan
  | .posInf, .negInf => .nan
  | .negInf, .posInf => .nan
  | .posInf, _ => .posInf
  | _, .posInf => .posInf
  | .negInf, _ => .negInf
  | _, .negInf => .negInf
  | .negZero, .negZero => .negZero
  | .negZero, b => b
  | a, .negZero => a
  | .fin p, .fin q => rat_to_f64 (qAdd p q)

/-- f64 subtraction (`a - b = a + (-b)` in IEEE-754). -/
def f64_sub (a b : F64) : F64 := f64_add a (f64_neg b)

/-- Sign bit of a float value (true = negative), for signed-zero rules. -/
def F64.signBit : F64 → Bool
  | .nan => false
  | .posInf => false
  | .negInf => true
  | .negZero => true
  | .fin q => decide (q < 0)

/-- f64 multiplication: exact product rounded, with IEEE special values and
signed zeros. -/
def f64_mul (a b : F64) : F64 :=
  match a, b with
  | .nan, _ => .nan
  | _, .nan => .nan
  | .posInf, b' =>
    match b'.asRat with
    | some q => if q = 0 then .nan else if q > 0 then .posInf else .negInf
    | none => if b' = .negInf then .negInf else .posInf
  | .negInf, b' =>
    match b'.asRat with
    | some q => if q = 0 then .nan else if q > 0 then .negInf else .posInf
    | none => if b' = .negInf then .posInf else .negInf
  | a', .posInf =>
    match a'.asRat with
    | some q => if q = 0 then .nan else if q > 0 then .posInf else .negInf
    | none => .nan
  | a', .negInf =>
    match a'.asRat with
    | some q => if q = 0 then .nan else if q > 0 then .negInf else .posInf
    | none => .nan
  | a', b' =>
    let p := a'.asRat.getD 0
    let q := b'.asRat.getD 0
    if p = 0 ∨ q = 0 then
      if a'.signBit = b'.signBit then .fin 0 else .negZero
    else rat_to_f64 (qMul p q)

/-- f64 division: exact quotient rounded, with IEEE special values.  The
interpreter only divides after its epsilon guard, so the zero-divisor arms
are unreachable from `eval` but are still given their IEEE values. -/
def f64_div (a b : F64) : F64 :=
  match a, b with
  | .nan, _ => .nan
  | _, .nan => .nan
  | .posInf, .posInf => .nan
  | .posInf, .negInf => .nan
  | .negInf, .posInf => .nan
  | .negInf, .negInf => .nan
  | .posInf, b' => if b'.signBit then .negInf else .posInf
  | .negInf, b' => if b'.signBit then .posInf else .negInf
  | a', .posInf => if a'.signBit then .negZero else .fin 0
  | a', .negInf => if a'.signBit then .fin 0 else .negZero
  | a', b' =>
    let p := a'.asRat.getD 0
    let q := b'.asRat.getD 0
    if q = 0 then
      if p = 0 then .nan
      else if a'.signBit = b'.signBit then .posInf else .negInf
    else if p = 0 then
      if a'.signBit = b'.signBit then .fin 0 else .negZero
    else rat_to_f64 (qDiv p q)

/-- Truncation toward zero on rationals. -/
def rat_trunc (q : ℚ) : ℤ := if 0 ≤ q then Rat.floor q else Rat.ceil q

/-- f64 remainder (Rust `%` on floats): `a - trunc(a/b) * b`, which is exact
in IEEE-754; NaN on NaN/infinite dividends or zero divisors. -/
def f64_fmod (a b : F64) : F64 :=
  match a, b with
  | .nan, _ => .nan
  | _, .nan => .nan
  | .posInf, _ => .nan
  | .negInf, _ => .nan
  | a', .posInf => a'
  | a', .negInf => a'
  | a', b' =>
    let p := a'.asRat.getD 0
    let q := b'.asRat.getD 0
    if q = 0 then .nan
    else
      let r := qSub p (qMul ((rat_trunc (qDiv p q) : ℤ) : ℚ) q)
      if r = 0 then (if a'.signBit then .negZero else .fin 0)
      else rat_to_f64 r

/-- f64 `powf`.  Only integer exponents have a rational closed form; for a
non-integer exponent (or other transcendental cases) the model returns NaN.
No verified claim depends on float exponentiation results. -/
def f64_powf (a b : F64) : F64 :=
  match b.asRat with
  | some q =>
    if q = 0 then .fin 1
    else
      match a.asRat with
      | some p =>
        if q.den = 1 then
          if 0 ≤ q.num then rat_to_f64 (qPowNat p q.num.natAbs)
          else if p = 0 then .posInf
          else rat_to_f64 (qInv (qPowNat p q.num.natAbs))
        else if p < 0 then .nan
        else .nan
      | none => .nan
  | none => .nan

/-- Drop trailing '0' characters (for decimal fraction display). -/
def trim_zeros (l : List Char) : List Char := (l.reverse.dropWhile (· = '0')).reverse

/-- Decimal rendering of `digits * 10^(-k)` with a sign flag. -/
def f64_decimal (neg : Bool) (digits : ℕ) (k : ℕ) : String :=
  let s := toString digits
  let s2 := if s.length ≤ k then String.mk (List.replicate (k + 1 - s.length) '0') ++ s else s
  let cs := s2.toList
  let ip := cs.take (cs.length - k)
  let fp := trim_zeros (cs.drop (cs.length - k))
  let base := if fp.isEmpty then String.mk ip else String.mk ip ++ "." ++ String.mk fp
  if neg then "-" ++ base else base

/-- Display of an f64 (Rust `Display`, i.e. `format!("\x7b\x7d", x)`).
A finite f64 is a dyadic rational, so it has an exact finite decimal
expansion, which is what this renders; Rust actually prints the shortest
decimal that round-trips, which coincides with the exact expansion for every
float appearing in this development (small integers and short fractions).
The fallback arm for a non-dyadic denominator is unreachable from genuine
f64 data. -/
def f64_display : F64 → String
  | .nan => "NaN"
  | .posInf => "inf"
  | .negInf => "-inf"
  | .negZero => "-0"
  | .fin q =>
    if q.den = 1 then toString q.num
    else
      let k := nat_bits q.den - 1
      if 2 ^ k = q.den then f64_decimal (decide (q < 0)) (q.num.natAbs * 5 ^ k) k
      else (if q < 0 then "-" else "") ++ toString q.num.natAbs ++ "/" ++ toString q.den

/-- Runtime values (main.rs lines 17-25): `Integer` is `BigInt`, `Float` is
`f64`, plus strings, booleans and `Void`. -/
inductive Value where
  | Integer : ℤ → Value
  | Float : F64 → Value
  | String : String → Value
  | Boolean : Bool → Value
  | Void : Value
deriving DecidableEq

/-- `Value::is_number`: true for `Integer` and `Float`. -/
def Value.is_number : Value → Bool
  | .Integer _ => true
  | .Float _ => true
  | _ => false

/-- `impl Display for Value` (main.rs 34-45): note strings display WITH
surrounding quotes. -/
def display_value : Value → String
  | .Integer n => toString n
  | .Float f => f64_display f
  | .String s => "\"" ++ s ++ "\""
  | .Boolean b => if b then "true" else "false"
  | .Void => "void"

/-- Debug rendering of a `Value` (Rust derived `Debug`), used inside
diagnostic strings.  The exact text of diagnostics is not load-bearing for
any claim; only which inputs produce errors is. -/
def debug_value : Value → String
  | .Integer n => "Integer(" ++ toString n ++ ")"
  | .Float f => "Float(" ++ f64_display f ++ ")"
  | .String s => "String(\"" ++ s ++ "\")"
  | .Boolean b => "Boolean(" ++ (if b then "true" else "false") ++ ")"
  | .Void => "Void"

/-- The printable form used by `print` formatting (`result_str` in
main.rs 1008-1014 and 1127-1133): strings unquoted, booleans as
`true`/`false`, `Void` as `void`. -/
def printable : Value → String
  | .Integer n => toString n
  | .Float f => f64_display f
  | .String s => s
  | .Boolean b => if b then "true" else "false"
  | .Void => "void"

/-- Expression AST (main.rs 47-58).  `Num` keeps the raw lexeme so the
evaluator can distinguish `1` (Integer) from `1.0` (Float). -/
inductive Expr where
  | Var : String → Expr
  | Num : String → Expr
  | Str : String → Expr
  | Prefix : Char → Expr → Expr
  | Infix : Expr → Char → Expr → Expr
  | Cmp : Expr → String → Expr → Expr
  | Logic : Expr → String → Expr → Expr
  | Call : String → List Expr → Expr

/-- Statement AST (main.rs 85-94). -/
inductive Statement where
  | Expr : Expr → Statement
  | Print : Option String → List Expr → Statement
  | Def : String → List String → List Statement → Statement
  | Return : Option Expr → Statement
  | If : Expr → List Statement → Option (List Statement) → Statement

/-- `Environment = HashMap<String, Value>`, modelled as an association list
whose `insert` overwrites in place. -/
abbrev Env := List (String × Value)

/-- `HashMap::get` (first binding wins; `env_insert` keeps keys unique). -/
def env_lookup (id : String) : Env → Option Value
  | [] => none
  | (k, v) :: rest => if k = id then some v else env_lookup id rest

/-- `HashMap::insert`: overwrite the existing binding or append a new one. -/
def env_insert (id : String) (v : Value) : Env → Env
  | [] => [(id, v)]
  | (k, w) :: rest => if k = id then (id, v) :: rest else (k, w) :: env_insert id v rest

/-- `FuncDefs = HashMap<String, (Vec<String>, Vec<Statement>)>`. -/
abbrev FuncDefs := List (String × (List String × List Statement))

/-- Function-table lookup. -/
def fd_lookup (id : String) : FuncDefs → Option (List String × List Statement)
  | [] => none
  | (k, v) :: rest => if k = id then some v else fd_lookup id rest

/-- Function-table insert (redefinition overwrites). -/
def fd_insert (id : String) (v : List String × List Statement) : FuncDefs → FuncDefs
  | [] => [(id, v)]
  | (k, w) :: rest => if k = id then (id, v) :: rest else (k, w) :: fd_insert id v rest

/-- `FunctionControlFlow` (main.rs 680-684): the three-way carrier from
nested statement execution inside a function body. -/
inductive FunctionControlFlow where
  | Continue : Value → FunctionControlFlow
  | Return : Value → FunctionControlFlow
  | Print : String → FunctionControlFlow
deriving DecidableEq

/-- Accumulate decimal digits; `none` on a non-digit character. -/
def digits_val (acc : ℕ) : List Char → Option ℕ
  | [] => some acc
  | c :: rest => if c.isDigit then digits_val (acc * 10 + (c.toNat - 48)) rest else none

/-- `str::parse::<BigInt>()`: optional sign followed by decimal digits. -/
def parse_int (s : String) : Option ℤ :=
  match s.toList with
  | [] => none
  | '-' :: rest => if rest.isEmpty then none else (digits_val 0 rest).map (fun n => -(n : ℤ))
  | '+' :: rest => if rest.isEmpty then none else (digits_val 0 rest).map (fun n => (n : ℤ))
  | l => (digits_val 0 l).map (fun n => (n : ℤ))

/-- Unsigned decimal body of a float literal: `digits`, `digits.digits`,
`digits.` or `.digits` (the forms `str::parse::<f64>` accepts that the
lexer can produce; the exponent and `inf`/`NaN` forms never reach `eval`). -/
def parse_float_core (l : List Char) : Option ℚ :=
  let ip := l.takeWhile Char.isDigit
  let rest := l.dropWhile Char.isDigit
  if rest = [] then
    if ip = [] then none else (digits_val 0 ip).map (fun n => (n : ℚ))
  else if rest.head? = some '.' then
    let fp := rest.tail
    if fp.all Char.isDigit = true ∧ ¬(ip = [] ∧ fp = []) then
      match digits_val 0 ip, digits_val 0 fp with
      | some i, some f => some (mkRat ((i : ℤ) * (10 : ℤ) ^ fp.length + (f : ℤ)) ((10 : ℕ) ^ fp.length))
      | _, _ => none
    else none
  else none

/-- `str::parse::<f64>()` on the numeric lexemes the lexer produces:
optional sign, decimal body, rounded to f64. -/
def parse_float (s : String) : Option F64 :=
  match s.toList with
  | '-' :: rest => (parse_float_core rest).map (fun q => rat_to_f64 (-q))
  | '+' :: rest => (parse_float_core rest).map rat_to_f64
  | l => (parse_float_core l).map rat_to_f64

/-- Truncated integer division (Rust `BigInt /`: toward zero). -/
def int_quot (a b : ℤ) : ℤ := (a.sign * b.sign) * ((a.natAbs / b.natAbs : ℕ) : ℤ)

/-- Truncated remainder (Rust `BigInt %`: sign of the dividend). -/
def int_rem (a b : ℤ) : ℤ := a - int_quot a b * b

/-- `BigInt::to_u32` under the guard `0 < r <= u32::MAX`. -/
def int_to_u32 (r : ℤ) : Option ℕ :=
  if 0 ≤ r ∧ r ≤ 4294967295 then some r.toNat else none

/-- `f64::EPSILON` = 2^-52, the divisor guard threshold in float `/`, `%`. -/
def f64_epsilon : F64 := .fin (mkRat 1 (2 ^ 52))

/-- The unary-operator step of `eval`'s `Expr::Prefix` arm after the operand
has been evaluated (main.rs 721-733): `+` returns the operand unchanged
(with NO type check in the source), `-` negates numbers and raises on
anything else. -/
def unary_apply (op : Char) (v : Value) : Except String Value :=
  match op with
  | '+' => .ok v
  | '-' =>
    match v with
    | .Integer n => .ok (.Integer (-n))
    | .Float f => .ok (.Float (f64_neg f))
    | v' => .error ("Unary minus only works on numbers, found " ++ debug_value v')
  | _ => .error ("Unknown prefix operator: " ++ toString op)

/-- Conversion of an already-is_number operand for the mixed/float
arithmetic arm (main.rs 791-800), with the side-specific error text. -/
def to_float_operand (side : String) (v : Value) : Except String F64 :=
  match v with
  | .Float f => .ok f
  | .Integer i =>
    match int_to_f64 i with
    | some f => .ok f
    | none => .error (side ++ " BigInt too large for float conversion")
  | _ => .error "unreachable: non-numeric operand in float arithmetic arm"

/-- The arithmetic step of `eval`'s consolidated `Expr::Infix` arm
(main.rs 736-830), applied to the two evaluated operands: pure-BigInt
arithmetic, string concatenation under `+`, the mixed/float coercion path,
and the incompatible-types error. -/
def eval_infix_op (op : Char) (l r : Value) : Except String Value :=
  match l, r with
  | .Integer a, .Integer b =>
    match op with
    | '+' => .ok (.Integer (a + b))
    | '-' => .ok (.Integer (a - b))
    | '*' => .ok (.Integer (a * b))
    | '%' => if b = 0 then .error "Modulo by zero" else .ok (.Integer (int_rem a b))
    | '/' => if b = 0 then .error "Division by zero" else .ok (.Integer (int_quot a b))
    | '^' =>
      if 0 < b ∧ b ≤ 4294967295 then
        match int_to_u32 b with
        | some e => .ok (.Integer (a ^ e))
        | none => .error "Exponent too large to convert to u32"
      else if b = 0 then .ok (.Integer 1)
      else .error "Integer exponentiation only supports positive exponents up to u32 max"
    | _ => .error ("Unknown numeric infix operator: " ++ toString op)
  | .String a, .String b =>
    if op = '+' then .ok (.String (a ++ b))
    else .error ("Incompatible types for operator '" ++ toString op ++ "': "
      ++ debug_value (.String a) ++ " and " ++ debug_value (.String b))
  | l', r' =>
    if l'.is_number && r'.is_number then
      match to_float_operand "Left" l' with
      | .error e => .error e
      | .ok lf =>
        match to_float_operand "Right" r' with
        | .error e => .error e
        | .ok rf =>
          match op with
          | '+' => .ok (.Float (f64_add lf rf))
          | '-' => .ok (.Float (f64_sub lf rf))
          | '*' => .ok (.Float (f64_mul lf rf))
          | '%' =>
            if f64_lt (f64_abs rf) f64_epsilon then .error "Modulo by zero in float operation"
            else .ok (.Float (f64_fmod lf rf))
          | '/' =>
            if f64_lt (f64_abs rf) f64_epsilon then .error "Division by zero in float operation"
            else .ok (.Float (f64_div lf rf))
          | '^' => .ok (.Float (f64_powf lf rf))
          | _ => .error ("Unknown numeric infix operator: " ++ toString op)
    else .error ("Incompatible types for operator '" ++ toString op ++ "': "
      ++ debug_value l' ++ " and " ++ debug_value r')

/-- Rust's derived `PartialEq` on `Value` (main.rs 17): same variant and
equal payloads, where Float payloads compare by IEEE-754 f64 equality. -/
def value_eq : Value → Value → Bool
  | .Integer a, .Integer b => decide (a = b)
  | .Float a, .Float b => f64_eq a b
  | .String a, .String b => decide (a = b)
  | .Boolean a, .Boolean b => decide (a = b)
  | .Void, .Void => true
  | _, _ => false

/-- Non-strict equality (`==` arm, main.rs 843-858): exact match first,
then the Integer/Float coercion cases via `BigInt::to_f64`. -/
def non_strict_eq (l r : Value) : Bool :=
  if value_eq l r then true
  else
    match l, r with
    | .Integer n, .Float x =>
      match int_to_f64 n with
      | some g => f64_eq g x
      | none => false
    | .Float x, .Integer n =>
      match int_to_f64 n with
      | some g => f64_eq x g
      | none => false
    | _, _ => false

/-- The comparison step of `eval`'s `Expr::Cmp` arm applied to the two
evaluated operands (main.rs 833-884).  The Float `>=` arm reproduces the
source's `r >= r` (not `l >= r`) verbatim. -/
def cmp_values (op : String) (l r : Value) : Except String Value :=
  match op with
  | "===" => .ok (.Boolean (value_eq l r))
  | "!==" => .ok (.Boolean (!value_eq l r))
  | "==" => .ok (.Boolean (non_strict_eq l r))
  | "!=" => .ok (.Boolean (!non_strict_eq l r))
  | "<" | ">" | "<=" | ">=" =>
    match l, r with
    | .Integer a, .Integer b =>
      .ok (.Boolean (match op with
        | "<" => decide (a < b)
        | ">" => decide (b < a)
        | "<=" => decide (a ≤ b)
        | ">=" => decide (b ≤ a)
        | _ => false))
    | .Float a, .Float b =>
      .ok (.Boolean (match op with
        | "<" => f64_lt a b
        | ">" => f64_gt a b
        | "<=" => f64_le a b
        | ">=" => f64_ge b b
        | _ => false))
    | .String a, .String b =>
      .ok (.Boolean (match op with
        | "<" => decide (a < b)
        | ">" => decide (b < a)
        | "<=" => decide (a ≤ b)
        | ">=" => decide (b ≤ a)
        | _ => false))
    | l', r' => .error ("Incompatible types for ordering operator '" ++ op ++ "': "
        ++ debug_value l' ++ " and " ++ debug_value r')
  | _ => .error ("Unknown comparison operator: " ++ op)

/-- Diagnostic for a logical operator applied to a non-Boolean. -/
def logic_err (op : String) (l r : Value) : String :=
  "Logical operator '" ++ op ++ "' only works on Booleans. Found "
    ++ debug_value l ++ " and " ++ debug_value r

/-- Opening brace character. -/
def lbrace : Char := Char.ofNat 123

/-- Closing brace character. -/
def rbrace : Char := Char.ofNat 125

/-- The two-character placeholder string used by `print` formatting. -/
def ph_str : String := String.mk [lbrace, rbrace]

/-- Index of the leftmost placeholder occurrence (Rust `str::find`). -/
def find_ph : List Char → Option ℕ
  | [] => none
  | c :: rest =>
    if c = lbrace ∧ rest.head? = some rbrace then some 0
    else (find_ph rest).map (· + 1)

/-- Number of non-overlapping placeholder occurrences, leftmost first. -/
def count_ph : List Char → ℕ
  | [] => 0
  | c :: rest =>
    if c = lbrace ∧ rest.head? = some rbrace then
      match rest with
      | _ :: rest2 => count_ph rest2 + 1
      | [] => 0
    else count_ph rest

/-- The too-few-placeholders hard error (main.rs 1021 / 1140). -/
def fmt_err (orig : String) : String :=
  "Not enough placeholders (" ++ ph_str ++ ") in format string: \"" ++ orig ++ "\""

/-- The format-substitution loop of the `Print` arms (main.rs 1002-1024 and
1121-1143, which are textually identical): a mutable output buffer and a
moving byte cursor `pos`; each argument replaces the first placeholder at or
after the cursor, and the cursor then advances past the inserted text. -/
def fmt_loop (orig : String) : List Value → List Char → ℕ → Except String (List Char)
  | [], out, _ => .ok out
  | v :: vs, out, pos =>
    match find_ph (out.drop pos) with
    | none => .error (fmt_err orig)
    | some j =>
      let s := (printable v).toList
      fmt_loop orig vs (out.take (pos + j) ++ s ++ out.drop (pos + j + 2)) (pos + j + s.length)

/-- The code-level formatted-print substitution. -/
def run_format (fmt : String) (vals : List Value) : Except String String :=
  (fmt_loop fmt vals fmt.toList 0).map String.mk

/-- Split a character list at its leftmost placeholder. -/
def split_ph (l : List Char) : Option (List Char × List Char) :=
  (find_ph l).map (fun j => (l.take j, l.drop (j + 2)))

/-- Modelled from the spec's words, for the C9 refinement comparison: `each
placeholder is replaced in order by the corresponding argument's printable
form`, scanning left to right, with replacements never re-substituted
(each replacement is emitted outside the recursion); a missing placeholder
is the hard error, and leftover text (extra placeholders included) is kept
literally. -/
def spec_subst (orig : String) : List Value → List Char → Except String (List Char)
  | [], rest => .ok rest
  | v :: vs, fmtL =>
    match split_ph fmtL with
    | none => .error (fmt_err orig)
    | some (pre, post) =>
      (spec_subst orig vs post).map (fun res => pre ++ (printable v).toList ++ res)

/-- The spec-level formatted-print substitution. -/
def spec_format (fmt : String) (vals : List Value) : Except String String :=
  (spec_subst fmt vals fmt.toList).map String.mk

/-- The output-construction step of a `Print` statement once its arguments
are evaluated (shared verbatim by main.rs 1002-1034 and 1121-1153): with a
format string, placeholder substitution; without one, exactly one argument
printed unquoted/display-form. -/
def format_output (ofmt : Option String) (results : List Value) : Except String String :=
  match ofmt with
  | some fmt => run_format fmt results
  | none =>
    match results with
    | [v] =>
      match v with
      | .String s => .ok s
      | .Boolean b => .ok (if b then "true" else "false")
      | v' => .ok (display_value v')
    | _ => .error "Simple print (without format string) expects exactly one argument"

/-- The bundle of mutually recursive interpreter functions at one fuel
level.  Results carry the updated environment(s) and the list of lines
emitted to stdout.  `run_fn_body` is `execute_function`'s statement loop
(1-based index for error wrapping); `run_if_body_in_function` and
`run_if_body_top` are the `If`-arm loops of the two statement runners. -/
structure Interp where
  eval : Expr → Env → FuncDefs → Except String (Value × Env × List String)
  eval_args : List Expr → Env → FuncDefs → Except String (List Value × Env × List String)
  execute_function : String → List Expr → Env → FuncDefs → Except String (Value × Env × List String)
  run_fn_body : String → List Statement → ℕ → Value → Env → FuncDefs → Except String (Value × List String)
  run_statement_in_function : Statement → Env → FuncDefs → Except String (FunctionControlFlow × Env × List String)
  run_if_body_in_function : List Statement → Value → Env → FuncDefs → Except String (FunctionControlFlow × Env × List String)
  run_statement : Statement → Env → FuncDefs → Except String (String × Env × FuncDefs × List String)
  run_if_body_top : List Statement → Env → FuncDefs → Except String (Env × FuncDefs × List String)

/-- Exhausted-fuel interpreter: every entry point fails. -/
def interpZero : Interp :=
  { eval := fun _ _ _ => .error "Insufficient fuel"
    eval_args := fun _ _ _ => .error "Insufficient fuel"
    execute_function := fun _ _ _ _ => .error "Insufficient fuel"
    run_fn_body := fun _ _ _ _ _ _ => .error "Insufficient fuel"
    run_statement_in_function := fun _ _ _ => .error "Insufficient fuel"
    run_if_body_in_function := fun _ _ _ _ => .error "Insufficient fuel"
    run_statement := fun _ _ _ => .error "Insufficient fuel"
    run_if_body_top := fun _ _ _ => .error "Insufficient fuel" }

/-- One interpreter layer on top of `prev`: each body is the direct
translation of the corresponding Rust function, with every recursive call
routed through `prev` (one unit of fuel per call). -/
def interpStep (prev : Interp) : Interp where
  eval := fun e env fd =>
    match e with
    | .Num s =>
      if s.toList.contains '.' then
        match parse_float s with
        | some f => .ok (.Float f, env, [])
        | none => .error "Invalid float: invalid float literal"
      else
        match parse_int s with
        | some i => .ok (.Integer i, env, [])
        | none => .error "Invalid integer: invalid digit found in string"
    | .Str s => .ok (.String s, env, [])
    | .Var id =>
      match env_lookup id env with
      | some v => .ok (v, env, [])
      | none => .error ("Cannot evaluate uninitialized variable: " ++ id)
    | .Call name args => prev.execute_function name args env fd
    | .Prefix op rhs =>
      match prev.eval rhs env fd with
      | .error er => .error er
      | .ok (v, env1, o1) =>
        match unary_apply op v with
        | .ok w => .ok (w, env1, o1)
        | .error er => .error er
    | .Infix lhs op rhs =>
      if op = '=' then
        match lhs with
        | .Var id =>
          match prev.eval rhs env fd with
          | .error er => .error er
          | .ok (v, env1, o1) => .ok (v, env_insert id v env1, o1)
        | _ => .error "Assignment target must be a variable"
      else
        match prev.eval lhs env fd with
        | .error er => .error er
        | .ok (lv, env1, o1) =>
          match prev.eval rhs env1 fd with
          | .error er => .error er
          | .ok (rv, env2, o2) =>
            match eval_infix_op op lv rv with
            | .ok w => .ok (w, env2, o1 ++ o2)
            | .error er => .error er
    | .Cmp lhs op rhs =>
      match prev.eval lhs env fd with
      | .error er => .error er
      | .ok (lv, env1, o1) =>
        match prev.eval rhs env1 fd with
        | .error er => .error er
        | .ok (rv, env2, o2) =>
          match cmp_values op lv rv with
          | .ok w => .ok (w, env2, o1 ++ o2)
          | .error er => .error er
    | .Logic lhs op rhs =>
      match prev.eval lhs env fd with
      | .error er => .error er
      | .ok (lv, env1, o1) =>
        if op = "and" ∧ lv = .Boolean false then .ok (.Boolean false, env1, o1)
        else if op = "or" ∧ lv = .Boolean true then .ok (.Boolean true, env1, o1)
        else
          match prev.eval rhs env1 fd with
          | .error er => .error er
          | .ok (rv, env2, o2) =>
            match op, lv, rv with
            | "and", .Boolean a, .Boolean b => .ok (.Boolean (a && b), env2, o1 ++ o2)
            | "or", .Boolean a, .Boolean b => .ok (.Boolean (a || b), env2, o1 ++ o2)
            | op', lv', rv' => .error (logic_err op' lv' rv')
  eval_args := fun es env fd =>
    match es with
    | [] => .ok ([], env, [])
    | e :: rest =>
      match prev.eval e env fd with
      | .error er => .error er
      | .ok (v, env1, o1) =>
        match prev.eval_args rest env1 fd with
        | .error er => .error er
        | .ok (vs, env2, o2) => .ok (v :: vs, env2, o1 ++ o2)
  execute_function := fun name args env fd =>
    match fd_lookup name fd with
    | none => .error ("Function '" ++ name ++ "' is not defined")
    | some (params, body) =>
      if params.length ≠ args.length then
        .error ("Function '" ++ name ++ "' expects " ++ toString params.length
          ++ " arguments, but received " ++ toString args.length)
      else
        match prev.eval_args args env fd with
        | .error er => .error er
        | .ok (vals, env1, o1) =>
          let localEnv := (params.zip vals).foldl (fun acc pv => env_insert pv.1 pv.2 acc) []
          match prev.run_fn_body name body 1 .Void localEnv fd with
          | .error er => .error er
          | .ok (v, o2) => .ok (v, env1, o1 ++ o2)
  run_fn_body := fun name stmts i last env fd =>
    match stmts with
    | [] => .ok (last, [])
    | stmt :: rest =>
      match prev.run_statement_in_function stmt env fd with
      | .error er => .error ("Function '" ++ name ++ "' Execution Error (Stmt "
          ++ toString i ++ "): " ++ er)
      | .ok (.Return v, _, o) => .ok (v, o)
      | .ok (.Continue v, env1, o) =>
        match prev.run_fn_body name rest (i + 1) v env1 fd with
        | .error er => .error er
        | .ok (v2, o2) => .ok (v2, o ++ o2)
      | .ok (.Print s, env1, o) =>
        match prev.run_fn_body name rest (i + 1) last env1 fd with
        | .error er => .error er
        | .ok (v2, o2) => .ok (v2, o ++ [s] ++ o2)
  run_statement_in_function := fun stmt env fd =>
    match stmt with
    | .Expr e =>
      match prev.eval e env fd with
      | .error er => .error er
      | .ok (v, env1, o1) => .ok (.Continue v, env1, o1)
    | .Print ofmt exprs =>
      match prev.eval_args exprs env fd with
      | .error er => .error er
      | .ok (vals, env1, o1) =>
        match format_output ofmt vals with
        | .error er => .error er
        | .ok s => .ok (.Print s, env1, o1)
    | .If cond ts es =>
      match prev.eval cond env fd with
      | .error er => .error er
      | .ok (cv, env1, o1) =>
        match cv with
        | .Boolean b =>
          if b then
            match prev.run_if_body_in_function ts .Void env1 fd with
            | .error er => .error er
            | .ok (fl, env2, o2) => .ok (fl, env2, o1 ++ o2)
          else
            match es with
            | some els =>
              match prev.run_if_body_in_function els .Void env1 fd with
              | .error er => .error er
              | .ok (fl, env2, o2) => .ok (fl, env2, o1 ++ o2)
            | none => .ok (.Continue .Void, env1, o1)
        | cv' => .error ("'if' condition must evaluate to a Boolean, found " ++ debug_value cv')
    | .Def name _ _ => .error ("Function definition '" ++ name ++ "' is only allowed at the top level")
    | .Return oe =>
      match oe with
      | some e =>
        match prev.eval e env fd with
        | .error er => .error er
        | .ok (v, env1, o1) => .ok (.Return v, env1, o1)
      | none => .ok (.Return .Void, env, [])
  run_if_body_in_function := fun stmts last env fd =>
    match stmts with
    | [] => .ok (.Continue last, env, [])
    | stmt :: rest =>
      match prev.run_statement_in_function stmt env fd with
      | .error er => .error er
      | .ok (.Return v, env1, o) => .ok (.Return v, env1, o)
      | .ok (.Continue v, env1, o) =>
        match prev.run_if_body_in_function rest v env1 fd with
        | .error er => .error er
        | .ok (fl, env2, o2) => .ok (fl, env2, o ++ o2)
      | .ok (.Print s, env1, o) =>
        match prev.run_if_body_in_function rest last env1 fd with
        | .error er => .error er
        | .ok (fl, env2, o2) => .ok (fl, env2, o ++ [s] ++ o2)
  run_statement := fun stmt env fd =>
    match stmt with
    | .Expr e =>
      match prev.eval e env fd with
      | .error er => .error er
      | .ok (v, env1, o1) =>
        match v with
        | .Void => .ok ("", env1, fd, o1)
        | v' => .ok (display_value v', env1, fd, o1)
    | .Print ofmt exprs =>
      match prev.eval_args exprs env fd with
      | .error er => .error er
      | .ok (vals, env1, o1) =>
        match format_output ofmt vals with
        | .error er => .error er
        | .ok s => .ok (s, env1, fd, o1 ++ [s])
    | .Def name params body => .ok ("", env, fd_insert name (params, body) fd, [])
    | .Return _ => .ok ("", env, fd, [])
    | .If cond ts es =>
      match prev.eval cond env fd with
      | .error er => .error er
      | .ok (cv, env1, o1) =>
        match cv with
        | .Boolean b =>
          if b then
            match prev.run_if_body_top ts env1 fd with
            | .error er => .error er
            | .ok (env2, fd2, o2) => .ok ("", env2, fd2, o1 ++ o2)
          else
            match es with
            | some els =>
              match prev.run_if_body_top els env1 fd with
              | .error er => .error er
              | .ok (env2, fd2, o2) => .ok ("", env2, fd2, o1 ++ o2)
            | none => .ok ("", env1, fd, o1)
        | cv' => .error ("'if' condition must evaluate to a Boolean, found " ++ debug_value cv')
  run_if_body_top := fun stmts env fd =>
    match stmts with
    | [] => .ok (env, fd, [])
    | stmt :: rest =>
      match prev.run_statement stmt env fd with
      | .error er => .error er
      | .ok (_, env1, fd1, o1) =>
        match prev.run_if_body_top rest env1 fd1 with
        | .error er => .error er
        | .ok (env2, fd2, o2) => .ok (env2, fd2, o1 ++ o2)

/-- The fueled interpreter tower: `interp (n+1)` answers one layer of
recursion and delegates deeper calls to `interp n`. -/
def interp : ℕ → Interp
  | 0 => interpZero
  | n + 1 => interpStep (interp n)

/-- `eval` at a given fuel (main.rs 688-918). -/
def evalFuel (fuel : ℕ) (e : Expr) (env : Env) (fd : FuncDefs) :
    Except String (Value × Env × List String) :=
  (interp fuel).eval e env fd

/-- Argument-list evaluation at a given fuel (main.rs 935-942). -/
def evalArgsFuel (fuel : ℕ) (es : List Expr) (env : Env) (fd : FuncDefs) :
    Except String (List Value × Env × List String) :=
  (interp fuel).eval_args es env fd

/-- `execute_function` at a given fuel (main.rs 921-987). -/
def executeFunction (fuel : ℕ) (name : String) (args : List Expr) (env : Env) (fd : FuncDefs) :
    Except String (Value × Env × List String) :=
  (interp fuel).execute_function name args env fd

/-- `execute_function`'s body loop at a given fuel (main.rs 950-986). -/
def runFnBody (fuel : ℕ) (name : String) (stmts : List Statement) (i : ℕ) (last : Value)
    (env : Env) (fd : FuncDefs) : Except String (Value × List String) :=
  (interp fuel).run_fn_body name stmts i last env fd

/-- `run_statement_in_function` at a given fuel (main.rs 989-1103). -/
def runStatementInFunction (fuel : ℕ) (stmt : Statement) (env : Env) (fd : FuncDefs) :
    Except String (FunctionControlFlow × Env × List String) :=
  (interp fuel).run_statement_in_function stmt env fd

/-- The `If`-arm body loop of `run_statement_in_function` at a given fuel
(main.rs 1055-1089), with the running `last_value` accumulator. -/
def runIfBodyInFunction (fuel : ℕ) (stmts : List Statement) (last : Value) (env : Env)
    (fd : FuncDefs) : Except String (FunctionControlFlow × Env × List String) :=
  (interp fuel).run_if_body_in_function stmts last env fd

/-- `run_statement` at a given fuel (main.rs 1105-1204). -/
def runStatement (fuel : ℕ) (stmt : Statement) (env : Env) (fd : FuncDefs) :
    Except String (String × Env × FuncDefs × List String) :=
  (interp fuel).run_statement stmt env fd

/-- The `If`-arm body loop of top-level `run_statement` at a given fuel
(main.rs 1193-1199). -/
def runIfBodyTop (fuel : ℕ) (stmts : List Statement) (env : Env) (fd : FuncDefs) :
    Except String (Env × FuncDefs × List String) :=
  (interp fuel).run_if_body_top stmts env fd

instance {ε α : Type} [DecidableEq ε] [DecidableEq α] : DecidableEq (Except ε α) := fun a b =>
  match a, b with
  | .ok x, .ok y =>
    if h : x = y then .isTrue (by rw [h]) else .isFalse (by intro hc; cases hc; exact h rfl)
  | .error x, .error y =>
    if h : x = y then .isTrue (by rw [h]) else .isFalse (by intro hc; cases hc; exact h rfl)
  | .ok _, .error _ => .isFalse (by intro hc; cases hc)
  | .error _, .ok _ => .isFalse (by intro hc; cases hc)

/-- C1: the claim states that `Cmp(l, ">=", r)` on two Floats yields
`Boolean(l >= r)` under IEEE-754 ordering.  The code instead computes
`r >= r` (main.rs 870): at `l = 1.0, r = 2.0` it therefore yields
`Boolean(true)` although `1.0 >= 2.0` is false under IEEE-754 — evidence of
the latent typo the spec itself flags as an open question. -/
theorem c1_float_ge_typo :
    cmp_values ">=" (.Float (.fin 1)) (.Float (.fin 2)) = .ok (.Boolean true) ∧
    f64_ge (.fin 1) (.fin 2) = false ∧
    cmp_values ">=" (.Float .nan) (.Float (.fin 2)) = .ok (.Boolean true) := by
  refine ⟨rfl, rfl, rfl⟩

/-- C10: strict equality on Floats follows IEEE-754 equality of the
payloads (the derived `PartialEq` on `Value` compares `f64` with `==`):
`0.0 === -0.0` is true, `NaN === NaN` is false, and `!==` negates both. -/
theorem c10_strict_float_eq_ieee :
    cmp_values "===" (.Float (.fin 0)) (.Float .negZero) = .ok (.Boolean true) ∧
    cmp_values "===" (.Float .nan) (.Float .nan) = .ok (.Boolean false) ∧
    cmp_values "!==" (.Float (.fin 0)) (.Float .negZero) = .ok (.Boolean false) ∧
    cmp_values "!==" (.Float .nan) (.Float .nan) = .ok (.Boolean true) := by
  refine ⟨rfl, rfl, rfl, rfl⟩

/-- C4 counterexample: the claim says unary `+` on a non-numeric operand
raises a type error, but the code's `'+' => Ok(val)` (main.rs 724) has no
type check at all: `+"a"`, `+true` and `+void` all succeed and return the
operand unchanged. -/
theorem c4_counterexample :
    evalFuel 2 (.Prefix '+' (.Str "a")) [] [] = .ok (.String "a", [], []) ∧
    unary_apply '+' (.Boolean true) = .ok (.Boolean true) ∧
    unary_apply '+' .Void = .ok .Void := by
  refine ⟨rfl, rfl, rfl⟩

/-- C4 (amended): unary `+` returns its operand unchanged whatever its
variant — String, Boolean and Void included — and never raises; unary `-`
negates an Integer to an Integer and a Float to a Float and raises the
unary-minus type error on every non-numeric operand. -/
theorem c4_unary_semantics :
    (∀ v : Value, unary_apply '+' v = .ok v) ∧
    (∀ n : ℤ, unary_apply '-' (.Integer n) = .ok (.Integer (-n))) ∧
    (∀ f : F64, unary_apply '-' (.Float f) = .ok (.Float (f64_neg f))) ∧
    (∀ s : String, unary_apply '-' (.String s)
      = .error ("Unary minus only works on numbers, found " ++ debug_value (.String s))) ∧
    (∀ b : Bool, unary_apply '-' (.Boolean b)
      = .error ("Unary minus only works on numbers, found " ++ debug_value (.Boolean b))) ∧
    (unary_apply '-' .Void
      = .error ("Unary minus only works on numbers, found " ++ debug_value .Void)) := by
  refine ⟨fun v => rfl, fun n => rfl, fun f => rfl, fun s => rfl, fun b => rfl, rfl⟩

/-- C7: Integer `^` raises exactly when the exponent is negative or above
`u32::MAX`; otherwise (zero exponent included, zero base included) it is
exact arbitrary-precision exponentiation. -/
theorem c7_integer_pow (l r : ℤ) :
    eval_infix_op '^' (.Integer l) (.Integer r) =
      if 0 ≤ r ∧ r ≤ 4294967295 then .ok (.Integer (l ^ r.toNat))
      else .error "Integer exponentiation only supports positive exponents up to u32 max" := by
  simp only [eval_infix_op, int_to_u32]
  by_cases h1 : 0 < r ∧ r ≤ 4294967295
  · rw [if_pos h1, if_pos ⟨le_of_lt h1.1, h1.2⟩, if_pos ⟨le_of_lt h1.1, h1.2⟩]
  · rw [if_neg h1]
    by_cases h2 : r = 0
    · subst h2
      norm_num
    · rw [if_neg h2, if_neg (by omega)]

/-- C6: strict equality implies non-strict equality, and a pair that is
non-strictly but not strictly equal is necessarily an Integer and a Float
(in either order) whose values coincide under `BigInt::to_f64` conversion
compared with IEEE-754 f64 equality — no other cross-variant pair is
non-strictly equal. -/
theorem c6_strict_vs_nonstrict (a b : Value) :
    (cmp_values "===" a b = .ok (.Boolean true) → cmp_values "==" a b = .ok (.Boolean true)) ∧
    (cmp_values "==" a b = .ok (.Boolean true) → cmp_values "===" a b = .ok (.Boolean false) →
      ∃ n x g, int_to_f64 n = some g ∧
        ((a = .Integer n ∧ b = .Float x ∧ f64_eq g x = true) ∨
         (a = .Float x ∧ b = .Integer n ∧ f64_eq x g = true))) := by
  have e1 : cmp_values "===" a b = .ok (.Boolean (value_eq a b)) := rfl
  have e2 : cmp_values "==" a b = .ok (.Boolean (non_strict_eq a b)) := rfl
  constructor
  · intro h
    rw [e1] at h
    simp only [Except.ok.injEq, Value.Boolean.injEq] at h
    rw [e2]
    have hns : non_strict_eq a b = true := by
      unfold non_strict_eq
      rw [if_pos h]
    rw [hns]
  · intro h1 h2
    rw [e2] at h1
    rw [e1] at h2
    simp only [Except.ok.injEq, Value.Boolean.injEq] at h1 h2
    unfold non_strict_eq at h1
    simp only [h2, Bool.false_eq_true, if_false] at h1
    cases a <;> cases b <;> simp only [reduceCtorEq] at h1 <;> try exact absurd h1 (by decide)
    case Integer.Float n x =>
      cases hg : int_to_f64 n with
      | none => rw [hg] at h1; simp at h1
      | some g =>
        rw [hg] at h1
        exact ⟨n, x, g, hg, Or.inl ⟨rfl, rfl, h1⟩⟩
    case Float.Integer x n =>
      cases hg : int_to_f64 n with
      | none => rw [hg] at h1; simp at h1
      | some g =>
        rw [hg] at h1
        exact ⟨n, x, g, hg, Or.inr ⟨rfl, rfl, h1⟩⟩

/-- C6 witness: both implications applied at concrete inputs — `1 === 1`
transfers to `1 == 1`, and `1 == 1.0` with `1 === 1.0` false produces the
Integer/Float coincidence. -/
theorem c6_strict_vs_nonstrict_witness :
    cmp_values "==" (.Integer 1) (.Integer 1) = .ok (.Boolean true) ∧
    ∃ n x g, int_to_f64 n = some g ∧
      ((Value.Integer 1 = .Integer n ∧ Value.Float (.fin 1) = .Float x ∧ f64_eq g x = true) ∨
       (Value.Integer 1 = .Float x ∧ Value.Float (.fin 1) = .Integer n ∧ f64_eq x g = true)) :=
  ⟨(c6_strict_vs_nonstrict (.Integer 1) (.Integer 1)).1 (by rfl),
   (c6_strict_vs_nonstrict (.Integer 1) (.Float (.fin 1))).2 (by rfl) (by rfl)⟩

/-- C3 counterexample: the claim says a top-level `Return expr` evaluates
`expr` (its side effects occur; an evaluation error aborts the statement).
The code's arm is `Statement::Return(_) => Ok(String::new())`
(main.rs 1172-1174): the expression is never evaluated — an assignment
inside it does not reach the environment, and an expression that would
raise leaves the statement succeeding. -/
theorem c3_counterexample :
    runStatement 4 (.Return (some (.Infix (.Var "x") '=' (.Num "7")))) [] [] = .ok ("", [], [], []) ∧
    runStatement 4 (.Return (some (.Var "y"))) [] [] = .ok ("", [], [], []) ∧
    evalFuel 3 (.Infix (.Var "x") '=' (.Num "7")) [] [] = .ok (.Integer 7, [("x", .Integer 7)], []) ∧
    evalFuel 3 (.Var "y") [] [] = .error "Cannot evaluate uninitialized variable: y" := by
  refine ⟨rfl, rfl, rfl, rfl⟩

/-- C3 (amended): at top level a `Return` statement is a complete no-op:
its optional expression is not evaluated (no side effects, no evaluation
errors), the result string is empty, and environment, function table and
output are unchanged. -/
theorem c3_top_level_return_noop (fuel : ℕ) (oe : Option Expr) (env : Env) (fd : FuncDefs) :
    runStatement (fuel + 1) (.Return oe) env fd = .ok ("", env, fd, []) := by
  rfl

/-- C2 counterexample: a function-context `If` whose condition evaluates to
`Boolean(true)` and whose body is the single expression statement `5`
(which produces a `Continue` carrier, no `Return` anywhere) yields
`Continue(Integer 5)` — not `Continue(Void)` as the claim states: the code
returns `Continue(last_value)` with the body's last `Continue`'d value
(main.rs 1055-1089). -/
theorem c2_counterexample :
    runStatementInFunction 6 (.If (.Cmp (.Num "1") "==" (.Num "1")) [.Expr (.Num "5")] none) [] []
      = .ok (.Continue (.Integer 5), [], []) ∧
    FunctionControlFlow.Continue (.Integer 5) ≠ .Continue .Void := by
  exact ⟨rfl, by decide⟩

/-- C2 (amended): in function context an executed `If` body propagates a
`Return` carrier unchanged and otherwise yields `Continue(v)` where `v` is
the value of the body's last `Continue` (`Void` when the executed body is
empty or when the condition is false with no else body) — not
`Continue(Void)` regardless of the body's last value. -/
theorem c2_if_in_function :
    (∀ (n : ℕ) (cond : Expr) (ts : List Statement) (es : Option (List Statement))
       (env env1 env2 : Env) (fd : FuncDefs) (o1 o2 : List String) (fl : FunctionControlFlow),
      evalFuel n cond env fd = .ok (.Boolean true, env1, o1) →
      runIfBodyInFunction n ts .Void env1 fd = .ok (fl, env2, o2) →
      runStatementInFunction (n + 1) (.If cond ts es) env fd = .ok (fl, env2, o1 ++ o2)) ∧
    (∀ (n : ℕ) (cond : Expr) (ts els : List Statement)
       (env env1 env2 : Env) (fd : FuncDefs) (o1 o2 : List String) (fl : FunctionControlFlow),
      evalFuel n cond env fd = .ok (.Boolean false, env1, o1) →
      runIfBodyInFunction n els .Void env1 fd = .ok (fl, env2, o2) →
      runStatementInFunction (n + 1) (.If cond ts (some els)) env fd = .ok (fl, env2, o1 ++ o2)) ∧
    (∀ (n : ℕ) (cond : Expr) (ts : List Statement) (env env1 : Env) (fd : FuncDefs)
       (o1 : List String),
      evalFuel n cond env fd = .ok (.Boolean false, env1, o1) →
      runStatementInFunction (n + 1) (.If cond ts none) env fd = .ok (.Continue .Void, env1, o1)) ∧
    (∀ (n : ℕ) (last : Value) (env : Env) (fd : FuncDefs),
      runIfBodyInFunction (n + 1) [] last env fd = .ok (.Continue last, env, [])) ∧
    (∀ (n : ℕ) (stmt : Statement) (rest : List Statement) (last v : Value)
       (env env1 : Env) (fd : FuncDefs) (o : List String),
      runStatementInFunction n stmt env fd = .ok (.Return v, env1, o) →
      runIfBodyInFunction (n + 1) (stmt :: rest) last env fd = .ok (.Return v, env1, o)) := by
  refine ⟨?_, ?_, ?_, ?_, ?_⟩
  · intro n cond ts es env env1 env2 fd o1 o2 fl h1 h2
    simp only [evalFuel] at h1
    simp only [runIfBodyInFunction] at h2
    simp only [runStatementInFunction, interp, interpStep]
    simp only [h1, h2]
    simp
  · intro n cond ts els env env1 env2 fd o1 o2 fl h1 h2
    simp only [evalFuel] at h1
    simp only [runIfBodyInFunction] at h2
    simp only [runStatementInFunction, interp, interpStep]
    simp only [h1, h2]
    simp
  · intro n cond ts env env1 fd o1 h1
    simp only [evalFuel] at h1
    simp only [runStatementInFunction, interp, interpStep]
    simp only [h1]
    simp
  · intro n last env fd
    rfl
  · intro n stmt rest last v env env1 fd o h1
    simp only [runStatementInFunction] at h1
    simp only [runIfBodyInFunction, interp, interpStep]
    simp only [h1]

/-- C2 witness: the amended rule applied at a concrete input — condition
`1 == 1`, body `[3]` — discharging both evaluation hypotheses. -/
theorem c2_if_in_function_witness :
    runStatementInFunction 6 (.If (.Cmp (.Num "1") "==" (.Num "1")) [.Expr (.Num "3")] none) [] []
      = .ok (.Continue (.Integer 3), [], []) :=
  c2_if_in_function.1 5 (.Cmp (.Num "1") "==" (.Num "1")) [.Expr (.Num "3")] none
    [] [] [] [] [] [] (.Continue (.Integer 3)) (by rfl) (by rfl)

/-- C5: logical operators short-circuit — `false and X` and `true or X`
return without evaluating `X` (its environment effects, output and errors
are exactly those of the left operand alone); otherwise `X` is evaluated,
the result is the boolean conjunction/disjunction when both operands are
Booleans, and a type error is raised when a required operand is not a
Boolean (main.rs 887-916). -/
theorem c5_logic_short_circuit :
    (∀ (n : ℕ) (l x : Expr) (env env1 : Env) (fd : FuncDefs) (o1 : List String),
      evalFuel n l env fd = .ok (.Boolean false, env1, o1) →
      evalFuel (n + 1) (.Logic l "and" x) env fd = .ok (.Boolean false, env1, o1)) ∧
    (∀ (n : ℕ) (l x : Expr) (env env1 : Env) (fd : FuncDefs) (o1 : List String),
      evalFuel n l env fd = .ok (.Boolean true, env1, o1) →
      evalFuel (n + 1) (.Logic l "or" x) env fd = .ok (.Boolean true, env1, o1)) ∧
    (∀ (n : ℕ) (l x : Expr) (env env1 env2 : Env) (fd : FuncDefs) (o1 o2 : List String) (b : Bool),
      evalFuel n l env fd = .ok (.Boolean true, env1, o1) →
      evalFuel n x env1 fd = .ok (.Boolean b, env2, o2) →
      evalFuel (n + 1) (.Logic l "and" x) env fd = .ok (.Boolean b, env2, o1 ++ o2)) ∧
    (∀ (n : ℕ) (l x : Expr) (env env1 env2 : Env) (fd : FuncDefs) (o1 o2 : List String) (b : Bool),
      evalFuel n l env fd = .ok (.Boolean false, env1, o1) →
      evalFuel n x env1 fd = .ok (.Boolean b, env2, o2) →
      evalFuel (n + 1) (.Logic l "or" x) env fd = .ok (.Boolean b, env2, o1 ++ o2)) ∧
    (∀ (n : ℕ) (l x : Expr) (env env1 env2 : Env) (fd : FuncDefs) (o1 o2 : List String)
       (lv rv : Value),
      evalFuel n l env fd = .ok (lv, env1, o1) →
      evalFuel n x env1 fd = .ok (rv, env2, o2) →
      lv ≠ .Boolean false →
      ((∀ a : Bool, lv ≠ .Boolean a) ∨ (∀ a : Bool, rv ≠ .Boolean a)) →
      evalFuel (n + 1) (.Logic l "and" x) env fd = .error (logic_err "and" lv rv)) ∧
    (∀ (n : ℕ) (l x : Expr) (env env1 env2 : Env) (fd : FuncDefs) (o1 o2 : List String)
       (lv rv : Value),
      evalFuel n l env fd = .ok (lv, env1, o1) →
      evalFuel n x env1 fd = .ok (rv, env2, o2) →
      lv ≠ .Boolean true →
      ((∀ a : Bool, lv ≠ .Boolean a) ∨ (∀ a : Bool, rv ≠ .Boolean a)) →
      evalFuel (n + 1) (.Logic l "or" x) env fd = .error (logic_err "or" lv rv)) := by
  refine ⟨?_, ?_, ?_, ?_, ?_, ?_⟩
  · intro n l x env env1 fd o1 h1
    simp only [evalFuel] at h1 ⊢
    simp only [interp, interpStep, h1]
    simp
  · intro n l x env env1 fd o1 h1
    simp only [evalFuel] at h1 ⊢
    simp only [interp, interpStep, h1]
    simp
  · intro n l x env env1 env2 fd o1 o2 b h1 h2
    simp only [evalFuel] at h1 h2 ⊢
    simp only [interp, interpStep, h1, h2]
    simp
  · intro n l x env env1 env2 fd o1 o2 b h1 h2
    simp only [evalFuel] at h1 h2 ⊢
    simp only [interp, interpStep, h1, h2]
    simp
  · intro n l x env env1 env2 fd o1 o2 lv rv h1 h2 h3 h4
    simp only [evalFuel] at h1 h2 ⊢
    simp only [interp, interpStep, h1]
    rw [if_neg (by intro hc; exact h3 hc.2)]
    rw [if_neg (by intro hc; exact absurd hc.1 (by decide))]
    simp only [h2]
    rcases h4 with h4 | h4
    · cases lv <;> simp_all
    · cases rv <;> simp_all
  · intro n l x env env1 env2 fd o1 o2 lv rv h1 h2 h3 h4
    simp only [evalFuel] at h1 h2 ⊢
    simp only [interp, interpStep, h1]
    rw [if_neg (by intro hc; exact absurd hc.1 (by decide))]
    rw [if_neg (by intro hc; exact h3 hc.2)]
    simp only [h2]
    rcases h4 with h4 | h4
    · cases lv <;> simp_all
    · cases rv <;> simp_all

/-- C5 witness: the `and` short-circuit rule applied at a concrete input
whose right operand (`boom`, an uninitialized variable) would raise if it
were evaluated. -/
theorem c5_logic_short_circuit_witness :
    evalFuel 4 (.Logic (.Cmp (.Num "1") "==" (.Num "2")) "and" (.Var "boom")) [] []
      = .ok (.Boolean false, [], []) :=
  c5_logic_short_circuit.1 3 (.Cmp (.Num "1") "==" (.Num "2")) (.Var "boom")
    [] [] [] [] (by rfl)

/-- C8 counterexample: the claim says a successful call leaves the caller's
Environment unchanged (except for assigning the returned value), but the
code evaluates the argument expressions in the caller's mutable Environment
(main.rs 935-942): calling `f(x = 5)` (with `fn f(a) []`) succeeds and
leaves `x = 5` in the caller's previously-empty environment. -/
theorem c8_counterexample :
    executeFunction 6 "f" [.Infix (.Var "x") '=' (.Num "5")] [] [("f", (["a"], []))]
      = .ok (.Void, [("x", .Integer 5)], []) ∧
    ([("x", Value.Integer 5)] : Env) ≠ [] := by
  exact ⟨rfl, by decide⟩

/-- C8 (amended): after a successful call the caller's Environment is
exactly the environment produced by evaluating the argument expressions in
order in it — the body of the function executes in a fresh local
environment and never modifies the caller's. -/
theorem c8_hermetic_modulo_args (n : ℕ) (name : String) (args : List Expr)
    (env env2 : Env) (fd : FuncDefs) (v : Value) (out : List String) :
    executeFunction (n + 1) name args env fd = .ok (v, env2, out) →
    ∃ vals o1, evalArgsFuel n args env fd = .ok (vals, env2, o1) := by
  intro h
  simp only [executeFunction, interp, interpStep] at h
  cases hfd : fd_lookup name fd with
  | none => rw [hfd] at h; cases h
  | some pb =>
    obtain ⟨params, body⟩ := pb
    rw [hfd] at h
    simp only at h
    by_cases hl : params.length ≠ args.length
    · rw [if_pos hl] at h; cases h
    · rw [if_neg hl] at h
      cases hargs : (interp n).eval_args args env fd with
      | error e => rw [hargs] at h; cases h
      | ok t =>
        obtain ⟨vals, env1, o1⟩ := t
        rw [hargs] at h
        simp only at h
        cases hbody : (interp n).run_fn_body name body 1 .Void
            ((params.zip vals).foldl (fun acc pv => env_insert pv.1 pv.2 acc) []) fd with
        | error e => rw [hbody] at h; cases h
        | ok p =>
          obtain ⟨v2, o2⟩ := p
          rw [hbody] at h
          simp only [Except.ok.injEq, Prod.mk.injEq] at h
          exact ⟨vals, o1, by simp only [evalArgsFuel]; rw [hargs, h.2.1]⟩

/-- C8 witness: the amended rule applied at a concrete call `g(x = 6)`
whose argument assignment mutates the caller's environment. -/
theorem c8_hermetic_modulo_args_witness :
    ∃ vals o1, evalArgsFuel 5 [.Infix (.Var "x") '=' (.Num "6")] ([] : Env)
      [("g", (["a"], ([] : List Statement)))] = .ok (vals, [("x", Value.Integer 6)], o1) :=
  c8_hermetic_modulo_args 5 "g" [.Infix (.Var "x") '=' (.Num "6")] [] [("x", Value.Integer 6)]
    [("g", (["a"], []))] .Void [] (by rfl)

/-- A found placeholder occurrence lies within the list. -/
theorem find_ph_bound : ∀ (l : List Char) (j : ℕ), find_ph l = some j → j + 2 ≤ l.length := by
  intro l
  induction l with
  | nil => intro j h; simp [find_ph] at h
  | cons c rest ih =>
    intro j h
    simp only [find_ph] at h
    by_cases hc : c = lbrace ∧ rest.head? = some rbrace
    · rw [if_pos hc] at h
      injection h with h'
      subst h'
      cases rest with
      | nil => simp at hc
      | cons d tl => simp
    · rw [if_neg hc] at h
      cases hf : find_ph rest with
      | none => rw [hf] at h; simp at h
      | some j' =>
        rw [hf] at h
        simp only [Option.map_some', Option.some.injEq] at h
        have := ih j' hf
        simp only [List.length_cons]
        omega

/-- A placeholder found at `j` splits the count: one occurrence consumed,
the rest beyond `j + 2`. -/
theorem find_ph_count : ∀ (l : List Char) (j : ℕ), find_ph l = some j →
    count_ph l = count_ph (l.drop (j + 2)) + 1 := by
  intro l
  induction l with
  | nil => intro j h; simp [find_ph] at h
  | cons c rest ih =>
    intro j h
    simp only [find_ph] at h
    by_cases hc : c = lbrace ∧ rest.head? = some rbrace
    · rw [if_pos hc] at h
      injection h with h'
      subst h'
      cases rest with
      | nil => simp at hc
      | cons d tl =>
        have h2 : count_ph (c :: d :: tl) = count_ph tl + 1 := by
          conv_lhs => rw [count_ph.eq_def]
          simp only []
          rw [if_pos hc]
        simpa using h2
    · rw [if_neg hc] at h
      cases hf : find_ph rest with
      | none => rw [hf] at h; simp at h
      | some j' =>
        rw [hf] at h
        simp only [Option.map_some', Option.some.injEq] at h
        subst h
        have hcount : count_ph (c :: rest) = count_ph rest := by
          conv_lhs => rw [count_ph.eq_def]
          simp only []
          rw [if_neg hc]
        rw [hcount, ih j' hf]
        congr 1

/-- No placeholder found means a zero placeholder count. -/
theorem find_ph_none_count : ∀ l : List Char, find_ph l = none ↔ count_ph l = 0 := by
  intro l
  induction l with
  | nil => simp [find_ph, count_ph]
  | cons c rest ih =>
    by_cases hc : c = lbrace ∧ rest.head? = some rbrace
    · cases rest with
      | nil => simp at hc
      | cons d tl =>
        obtain ⟨hc1, hc2⟩ := hc
        subst hc1
        have h2 : count_ph (lbrace :: d :: tl) = count_ph tl + 1 := by
          conv_lhs => rw [count_ph.eq_def]
          simp only []
          rw [if_pos ⟨trivial, hc2⟩]
        simp [find_ph, hc2, h2]
    · have hcount : count_ph (c :: rest) = count_ph rest := by
        conv_lhs => rw [count_ph.eq_def]
        simp only []
        rw [if_neg hc]
      simp only [find_ph, if_neg hc, hcount]
      cases hf : find_ph rest with
      | none => simp [hf, ih.mp hf]
      | some j =>
        simp only [Option.map_some']
        constructor
        · intro h; cases h
        · intro h
          rw [ih.mpr h] at hf
          cases hf

/-- The cursor-based substitution loop, started after an already-emitted
prefix, equals the spec-level substitution of the remaining format text
with that prefix prepended: the cursor exactly prevents re-substitution
inside emitted text. -/
theorem fmt_loop_spec (orig : String) :
    ∀ (vs : List Value) (pre rest : List Char),
      fmt_loop orig vs (pre ++ rest) pre.length
        = (spec_subst orig vs rest).map (fun r => pre ++ r) := by
  intro vs
  induction vs with
  | nil => intro pre rest; simp [fmt_loop, spec_subst, Except.map]
  | cons v vs ih =>
    intro pre rest
    simp only [fmt_loop, spec_subst, split_ph]
    rw [List.drop_left]
    cases hf : find_ph rest with
    | none => simp [Except.map]
    | some j =>
      have hb := find_ph_bound rest j hf
      simp only [Option.map_some']
      rw [List.take_append j]
      have hd : pre.length + j + 2 = pre.length + (j + 2) := by omega
      rw [hd, List.drop_append]
      have hpre2 : pre ++ rest.take j ++ (printable v).toList ++ rest.drop (j + 2)
          = (pre ++ rest.take j ++ (printable v).toList) ++ rest.drop (j + 2) := by
        simp [List.append_assoc]
      have hlen : pre.length + j + (printable v).toList.length
          = (pre ++ rest.take j ++ (printable v).toList).length := by
        simp only [List.length_append, List.length_take]
        omega
      rw [hpre2, hlen, ih]
      cases hs : spec_subst orig vs (rest.drop (j + 2)) with
      | error e => simp [Except.map]
      | ok r => simp [Except.map, List.append_assoc]

/-- Spec-level substitution succeeds exactly when the format text holds at
least as many placeholders as there are arguments. -/
theorem spec_subst_ok_iff (orig : String) :
    ∀ (vs : List Value) (l : List Char),
      (∃ r, spec_subst orig vs l = .ok r) ↔ vs.length ≤ count_ph l := by
  intro vs
  induction vs with
  | nil => intro l; simp [spec_subst]
  | cons v vs ih =>
    intro l
    simp only [spec_subst, split_ph]
    cases hf : find_ph l with
    | none =>
      simp only [Option.map_none']
      constructor
      · intro ⟨r, hr⟩; cases hr
      · intro h
        rw [(find_ph_none_count l).mp hf] at h
        simp [List.length_cons] at h
    | some j =>
      simp only [Option.map_some']
      rw [find_ph_count l j hf]
      constructor
      · intro ⟨r, hr⟩
        cases hs : spec_subst orig vs (l.drop (j + 2)) with
        | error e => rw [hs] at hr; cases hr
        | ok r2 =>
          have := (ih (l.drop (j + 2))).mp ⟨r2, hs⟩
          simp only [List.length_cons]
          omega
      · intro h
        simp only [List.length_cons] at h
        obtain ⟨r2, hs⟩ := (ih (l.drop (j + 2))).mpr (by omega)
        exact ⟨l.take j ++ (printable v).toList ++ r2, by rw [hs]; rfl⟩

/-- C9: the code's formatted print — a left-to-right `find` for the
placeholder with a moving cursor that advances past each inserted
replacement — computes exactly the spec-level substitution: each
placeholder of the original format string is replaced in order by the
corresponding argument's printable form (strings unquoted, booleans as
`true`/`false`, `Void` as `void`), replacements are never re-substituted,
substitution succeeds if and only if the format string contains at least
as many placeholders as arguments (fewer is the hard error), and leftover
placeholders remain literally in the output. -/
theorem c9_format_substitution :
    (∀ (fmt : String) (vals : List Value), run_format fmt vals = spec_format fmt vals) ∧
    (∀ (fmt : String) (vals : List Value),
      (∃ r, run_format fmt vals = .ok r) ↔ vals.length ≤ count_ph fmt.toList) ∧
    (∀ s : String, printable (.String s) = s) ∧
    printable (.Boolean true) = "true" ∧
    printable (.Boolean false) = "false" ∧
    printable .Void = "void" := by
  have key : ∀ (fmt : String) (vals : List Value), run_format fmt vals = spec_format fmt vals := by
    intro fmt vals
    unfold run_format spec_format
    have h := fmt_loop_spec fmt vals [] fmt.toList
    simp only [List.nil_append, List.length_nil] at h
    rw [h]
    cases hs : spec_subst fmt vals fmt.toList with
    | error e => rfl
    | ok r => simp [Except.map]
  refine ⟨key, ?_, fun s => rfl, rfl, rfl, rfl⟩
  intro fmt vals
  rw [key]
  unfold spec_format
  constructor
  · intro ⟨r, hr⟩
    cases hs : spec_subst fmt vals fmt.toList with
    | error e => rw [hs] at hr; cases hr
    | ok r2 => exact (spec_subst_ok_iff fmt vals fmt.toList).mp ⟨r2, hs⟩
  · intro h
    obtain ⟨r2, hs⟩ := (spec_subst_ok_iff fmt vals fmt.toList).mpr h
    exact ⟨String.mk r2, by rw [hs]; rfl⟩
